import Mathlib

/-!
Shallow embedding of the contact-book core of `src/bot.py`: the value types
(`Phone`, `Birthday`), the `Record` and `AddressBook` data model, and the
birthday-window query `get_upcoming_birthdays`, together with theorems about
the properties claimed of them.

Modelling conventions:
* Python `datetime.date` values are the `Date` structure below; Python's date
  arithmetic (`toordinal`, `weekday`, `timedelta` addition, `replace(year=...)`)
  is reimplemented over it with the proleptic Gregorian calendar, exactly as
  CPython's `datetime` module computes it.
* A raised `ValueError` from date construction is `none` (for `Option`-valued
  functions) or `Except.error` (for phone operations, whose two distinct error
  messages are distinguished by `PhoneError`).
* Python strings are Lean `String`s; the program only ever handles ASCII
  command-line tokens, so `str.isdigit` is modelled as "non-empty and every
  character in '0'..'9'".
* Date strings handed to `Birthday` are modelled as `List Char` so that the
  parser `strptime_dmY` (mirroring `datetime.strptime(value, "%d.%m.%Y")`)
  is a plain structural recursion.
-/

namespace Bot

/-- A calendar date, as CPython's `datetime.date` (year, month, day). -/
structure Date where
  year : Nat
  month : Nat
  day : Nat
deriving DecidableEq, Repr

/-- Gregorian leap-year rule, as `calendar.isleap` / `datetime`. -/
def isLeapYear (y : Nat) : Bool :=
  (y % 4 == 0 && y % 100 != 0) || (y % 400 == 0)

/-- Days in a month of a given year, as `datetime`'s `_days_in_month`. -/
def daysInMonth (y m : Nat) : Nat :=
  if m = 2 then (if isLeapYear y then 29 else 28)
  else if m = 4 ∨ m = 6 ∨ m = 9 ∨ m = 11 then 30
  else 31

/-- `datetime.date(y, m, d)`: validates ranges (CPython accepts years 1..9999)
and otherwise raises `ValueError` (here: `none`). -/
def mkValidDate (y m d : Nat) : Option Date :=
  if 1 ≤ y ∧ y ≤ 9999 ∧ 1 ≤ m ∧ m ≤ 12 ∧ 1 ≤ d ∧ d ≤ daysInMonth y m then
    some ⟨y, m, d⟩
  else none

/-- Days in the months strictly before month `m` of year `y`
(`datetime`'s `_days_before_month`). -/
def daysBeforeMonth (y m : Nat) : Nat :=
  (List.range (m - 1)).foldl (fun acc i => acc + daysInMonth y (i + 1)) 0

/-- `date.toordinal()`: day 1 is 01.01.0001 of the proleptic Gregorian
calendar. -/
def toOrdinal (d : Date) : Nat :=
  365 * (d.year - 1) + (d.year - 1) / 4 - (d.year - 1) / 100 + (d.year - 1) / 400
    + daysBeforeMonth d.year d.month + d.day

/-- `date.weekday()`: Monday = 0 … Sunday = 6; ordinal 1 was a Monday. -/
def weekday (d : Date) : Nat :=
  (toOrdinal d + 6) % 7

/-- Python `date` comparison `<` (lexicographic on (year, month, day)). -/
def dateLt (a b : Date) : Bool :=
  a.year.blt b.year ||
    (a.year.beq b.year &&
      (a.month.blt b.month || (a.month.beq b.month && a.day.blt b.day)))

/-- The day after `d` (`d + timedelta(days=1)` restricted to the calendar
step; year 9999 wraps numerically, which the program never reaches). -/
def nextDay (d : Date) : Date :=
  if d.day < daysInMonth d.year d.month then ⟨d.year, d.month, d.day + 1⟩
  else if d.month < 12 then ⟨d.year, d.month + 1, 1⟩
  else ⟨d.year + 1, 1, 1⟩

/-- `d + timedelta(days=n)` for `n ≥ 0`. -/
def addDays (d : Date) : Nat → Date
  | 0 => d
  | n + 1 => nextDay (addDays d n)

/-- `strftime` zero-padded two-digit field (`%d`, `%m`); faithful for the
values `< 100` the program produces. -/
def pad2 (n : Nat) : List Char :=
  [Char.ofNat (48 + n / 10 % 10), Char.ofNat (48 + n % 10)]

/-- `strftime` four-digit year field `%Y`, zero padded; faithful for the
years `1..9999` that `datetime.date` admits. -/
def pad4 (n : Nat) : List Char :=
  [Char.ofNat (48 + n / 1000 % 10), Char.ofNat (48 + n / 100 % 10),
   Char.ofNat (48 + n / 10 % 10), Char.ofNat (48 + n % 10)]

/-- `date.strftime('%d.%m.%Y')`. -/
def formatDMY (d : Date) : List Char :=
  pad2 d.day ++ '.' :: (pad2 d.month ++ '.' :: pad4 d.year)

/-- The two distinct `ValueError`s of the phone operations in `bot.py`. -/
inductive PhoneError where
  /-- "Invalid phone number format" / "Invalid new phone number format". -/
  | invalidFormat
  /-- "Old phone number not found". -/
  | notFound
deriving DecidableEq, Repr

/-- Python `str.isdigit()` on the ASCII strings this program handles:
non-empty and every character a decimal digit. -/
def py_isdigit (s : String) : Bool :=
  !s.data.isEmpty && s.data.all Char.isDigit

/-- `Phone.__init__` (bot.py:14-18): raises unless the value is a 10-character
digit string; otherwise stores the string unchanged. -/
def phone_new (s : String) : Except PhoneError String :=
  if !py_isdigit s || s.length != 10 then .error .invalidFormat
  else .ok s

/-- A `Record` (bot.py:27-31): a name, an ordered phone list (each entry the
string stored in a `Phone`), and an optional birthday (the parsed date stored
in a `Birthday`). -/
structure Record where
  name : String
  phones : List String
  birthday : Option Date
deriving DecidableEq, Repr

/-- `Record.__init__` (bot.py:28-31): no validation of `name` whatsoever. -/
def record_new (name : String) : Record :=
  { name := name, phones := [], birthday := none }

/-- `Record.add_phone` (bot.py:33-36): validates, then appends `Phone(phone)`. -/
def add_phone (r : Record) (phone : String) : Except PhoneError Record :=
  if !py_isdigit phone || phone.length != 10 then .error .invalidFormat
  else .ok { r with phones := r.phones ++ [phone] }

/-- The loop of `Record.edit_phone` (bot.py:47-58) over the phone list: the
first entry equal to `old_phone` is validated-then-replaced in place; if the
scan exhausts the list, `found` stays false and "Old phone number not found"
is raised. -/
def edit_phone_list (phones : List String) (old_phone new_phone : String) :
    Except PhoneError (List String) :=
  match phones with
  | [] => .error .notFound
  | p :: ps =>
    if p = old_phone then
      if !py_isdigit new_phone || new_phone.length != 10 then .error .invalidFormat
      else .ok (new_phone :: ps)
    else (edit_phone_list ps old_phone new_phone).map (p :: ·)

/-- `Record.edit_phone` (bot.py:47-58). -/
def edit_phone (r : Record) (old_phone new_phone : String) :
    Except PhoneError Record :=
  (edit_phone_list r.phones old_phone new_phone).map
    (fun ps => { r with phones := ps })

/-- `str.split('.')` (mirrors Python `str.split` with an explicit separator,
as used by `strptime` to cut `%d.%m.%Y` fields). -/
def split_dot : List Char → List (List Char)
  | [] => [[]]
  | c :: cs =>
    if c = '.' then [] :: split_dot cs
    else
      match split_dot cs with
      | [] => [[c]]
      | g :: gs => (c :: g) :: gs

/-- Numeric value of a digit-character field. -/
def digitsVal (l : List Char) : Nat :=
  l.foldl (fun acc c => 10 * acc + (c.toNat - 48)) 0

/-- `datetime.strptime(s, "%d.%m.%Y").date()`: three dot-separated fields,
day and month of 1-2 digits, year of exactly 4 digits (CPython's `_strptime`
regex for `%Y` is four digits), then `date` construction validates the
calendar values; any failure raises `ValueError` (here `none`). -/
def strptime_dmY (s : List Char) : Option Date :=
  match split_dot s with
  | [df, mf, yf] =>
    if 1 ≤ df.length ∧ df.length ≤ 2 ∧ df.all Char.isDigit ∧
       1 ≤ mf.length ∧ mf.length ≤ 2 ∧ mf.all Char.isDigit ∧
       yf.length = 4 ∧ yf.all Char.isDigit then
      mkValidDate (digitsVal yf) (digitsVal mf) (digitsVal df)
    else none
  | _ => none

/-- `Birthday.__init__` (bot.py:20-25): parse strictly as `%d.%m.%Y`. -/
def birthday_new (s : List Char) : Option Date :=
  strptime_dmY s

/-- `AddressBook.data` (bot.py:69): a `dict` keyed by each record's name.
Modelled as the list of records in insertion order; `dict` key lookup is
`find_record`, `dict` assignment is `add_record`. -/
abbrev Book := List Record

/-- `AddressBook.find` (bot.py:73-74): `self.data.get(name)`. -/
def find_record (book : Book) (name : String) : Option Record :=
  book.find? (fun r => r.name == name)

/-- `AddressBook.add_record` (bot.py:70-71):
`self.data[record.name.value] = record` — replaces the entry stored under
that name if present, appends otherwise. -/
def add_record (book : Book) (r : Record) : Book :=
  if book.any (fun x => x.name == r.name) then
    book.map (fun x => if x.name == r.name then r else x)
  else book ++ [r]

/-- `prepare_users` (bot.py:81-86): keep the records with a birthday set. -/
def prepare_users (records : List Record) : List Record :=
  records.filter (fun r => r.birthday.isSome)

/-- `find_next_weekday` (bot.py:88-92). -/
def find_next_weekday (d : Date) (wd : Nat) : Date :=
  let days_ahead : Int := (wd : Int) - (weekday d : Int)
  let days_ahead := if days_ahead ≤ 0 then days_ahead + 7 else days_ahead
  addDays d days_ahead.toNat

/-- Lines 98-101 of bot.py: `record.birthday.value.replace(year=today.year)`,
advanced to `today.year + 1` when strictly before `today`; each `replace` can
raise `ValueError` (here `none`). -/
def next_occurrence (today b : Date) : Option Date :=
  match mkValidDate today.year b.month b.day with
  | none => none
  | some d =>
    if dateLt d today then mkValidDate (today.year + 1) b.month b.day
    else some d

/-- The body of the loop in `find_upcoming_birthdays` (bot.py:97-111) for one
record: outer `none` is a raised `ValueError`; inner `none` means the record
is outside the window (nothing appended); a record without a birthday never
reaches the loop (`prepare_users` filtered it) and contributes nothing. -/
def process_record (days : Nat) (today : Date) (r : Record) :
    Option (Option (String × String)) :=
  match r.birthday with
  | none => some none
  | some b =>
    match next_occurrence today b with
    | none => none
    | some d =>
      if 0 ≤ (toOrdinal d : Int) - (toOrdinal today : Int) ∧
         (toOrdinal d : Int) - (toOrdinal today : Int) ≤ (days : Int) then
        let c := if 5 ≤ weekday d then find_next_weekday d 0 else d
        some (some (r.name, String.mk (formatDMY c)))
      else some none

/-- `find_upcoming_birthdays` (bot.py:94-112), with `today` the value that
`datetime.today().date()` returned at the moment of the call. -/
def find_upcoming_birthdays (days : Nat) (today : Date) :
    List Record → Option (List (String × String))
  | [] => some []
  | r :: rs =>
    match process_record days today r with
    | none => none
    | some none => find_upcoming_birthdays days today rs
    | some (some p) => (find_upcoming_birthdays days today rs).map (p :: ·)

/-- `AddressBook.get_upcoming_birthdays` (bot.py:80-116). The reference date
`today` is not a parameter of the Python method: it is the hidden reading of
the system clock (`datetime.today().date()`, line 95), surfaced here as an
explicit argument of the embedding. -/
def get_upcoming_birthdays (book : Book) (days : Nat) (today : Date) :
    Option (List (String × String)) :=
  find_upcoming_birthdays days today (prepare_users book)

/-- Record update at a name, modelling in-place mutation of the record object
stored in the `dict` (names are unique in any book the program builds). -/
def update_record (book : Book) (name : String) (f : Record → Record) : Book :=
  book.map (fun r => if r.name == name then f r else r)

/-- The find-or-create prefix of `add_contact` (bot.py:136-141), the
operation the spec names `addOrGet`: look the name up; when absent create
`Record(name)` and `add_record` it; return the stored record. -/
def add_or_get (book : Book) (name : String) : Book × Record :=
  match find_record book name with
  | some r => (book, r)
  | none => (add_record book (record_new name), record_new name)

/-- `add_contact` (bot.py:133-144): find-or-create, then (for a non-empty
phone token — `if phone:`) `record.add_phone(phone)`, whose `ValueError`
escapes after the insertion already happened. Returns the book as mutated
plus the outcome. -/
def add_contact (book : Book) (name phone : String) :
    Book × Except PhoneError String :=
  match find_record book name with
  | some _ =>
    if phone ≠ "" then
      if !py_isdigit phone || phone.length != 10 then (book, .error .invalidFormat)
      else (update_record book name
              (fun r => { r with phones := r.phones ++ [phone] }),
            .ok "Contact updated.")
    else (book, .ok "Contact updated.")
  | none =>
    let book1 := add_record book (record_new name)
    if phone ≠ "" then
      if !py_isdigit phone || phone.length != 10 then (book1, .error .invalidFormat)
      else (update_record book1 name
              (fun r => { r with phones := r.phones ++ [phone] }),
            .ok "Contact added.")
    else (book1, .ok "Contact added.")

/-- A string in strict `DD.MM.YYYY` form with canonical zero-padding that
denotes a real calendar date: ten characters, digits in the day, month and
year positions, dots between them, and calendar-valid denoted values. -/
def is_canonical_date_string : List Char → Bool
  | [d1, d2, c1, m1, m2, c2, y1, y2, y3, y4] =>
    c1 == '.' && c2 == '.' &&
    d1.isDigit && d2.isDigit && m1.isDigit && m2.isDigit &&
    y1.isDigit && y2.isDigit && y3.isDigit && y4.isDigit &&
    (mkValidDate (digitsVal [y1, y2, y3, y4]) (digitsVal [m1, m2])
      (digitsVal [d1, d2])).isSome
  | _ => false

/-! ### Concrete fixtures used by witnesses and counterexamples -/

/-- The record of the spec's birthday-window example: `Bob`, born 15.06.2024. -/
def bobRecord : Record :=
  { name := "Bob", phones := [], birthday := some ⟨2024, 6, 15⟩ }

/-- A directory holding only `Bob`. -/
def bobBook : Book := [bobRecord]

/-- The record of the spec's year-wrap example: `Cleo`, born 02.01.1990. -/
def cleoRecord : Record :=
  { name := "Cleo", phones := [], birthday := some ⟨1990, 1, 2⟩ }

/-- A directory holding only `Cleo`. -/
def cleoBook : Book := [cleoRecord]

/-! ### Helper lemmas -/

/-- The raise condition shared by `Phone.__init__`, `Record.add_phone` and
`Record.edit_phone` is false exactly for 10-character digit strings. -/
theorem phone_check_false_iff (s : String) :
    ((!py_isdigit s || s.length != 10) = false) ↔
      (s.length = 10 ∧ s.data.all Char.isDigit = true) := by
  simp only [py_isdigit, Bool.or_eq_false_iff, Bool.not_eq_false,
    Bool.and_eq_true, bne_eq_false_iff_eq, Bool.not_eq_eq_eq_not,
    Bool.not_false, decide_eq_true_eq]
  constructor
  · rintro ⟨⟨-, hall⟩, hlen⟩
    exact ⟨hlen, hall⟩
  · rintro ⟨hlen, hall⟩
    refine ⟨⟨?_, hall⟩, hlen⟩
    have : s.data.length = 10 := hlen
    cases hd : s.data with
    | nil => rw [hd] at this; simp at this
    | cons a l => simp [hd]

/-! ### C1 — the reference date is not an explicit argument -/

/-- C1, counterexample: in `bot.py` the window query's result is **not** a
function of only the directory and the window length — `get_upcoming_birthdays`
takes no `today` parameter and reads `datetime.today().date()` instead, so two
calls over the same book with the same `days` differ when the clock reading
(modelled as the embedding's `today` argument) differs. -/
theorem c1_counterexample :
    ¬ (∀ today1 today2 : Date,
        get_upcoming_birthdays bobBook 7 today1 =
          get_upcoming_birthdays bobBook 7 today2) := by
  intro h
  exact absurd (h ⟨2024, 6, 10⟩ ⟨2024, 7, 10⟩) (by decide)

/-- C1, amended: the code reads `today` from the system clock inside the query
rather than taking it as an argument; for any fixed clock reading the result is
a deterministic function of the directory's records, the window length, and
that reading alone. -/
theorem c1_deterministic_given_clock (book : Book) (days : Nat)
    (t1 t2 : Date) (h : t1 = t2) :
    get_upcoming_birthdays book days t1 = get_upcoming_birthdays book days t2 := by
  rw [h]

/-- Witness for `c1_deterministic_given_clock` at a concrete book and date. -/
theorem c1_deterministic_given_clock_witness :
    get_upcoming_birthdays bobBook 7 ⟨2024, 6, 10⟩ =
      get_upcoming_birthdays bobBook 7 ⟨2024, 6, 10⟩ :=
  c1_deterministic_given_clock bobBook 7 ⟨2024, 6, 10⟩ ⟨2024, 6, 10⟩ rfl

/-! ### C4 — phone validation -/

/-- C4: phone construction succeeds and stores the string unchanged exactly
when it is 10 characters, all decimal digits, and fails with the
invalid-format error otherwise; `Record.add_phone` performs the identical
validation and appends the accepted value. -/
theorem c4_phone_validation (s : String) (r : Record) :
    phone_new s =
      (if s.length = 10 ∧ s.data.all Char.isDigit then .ok s
       else .error .invalidFormat) ∧
    add_phone r s =
      (if s.length = 10 ∧ s.data.all Char.isDigit then
        .ok { r with phones := r.phones ++ [s] }
       else .error .invalidFormat) := by
  unfold phone_new add_phone
  by_cases h : s.length = 10 ∧ s.data.all Char.isDigit
  · have hc : (!py_isdigit s || s.length != 10) = false :=
      (phone_check_false_iff s).mpr ⟨h.1, h.2⟩
    rw [if_pos h, if_pos h, hc]
    exact ⟨rfl, rfl⟩
  · have hc : (!py_isdigit s || s.length != 10) = true := by
      by_contra hne
      exact h (by simpa using (phone_check_false_iff s).mp (by simpa using hne))
    rw [if_neg h, if_neg h, hc]
    exact ⟨rfl, rfl⟩

/-! ### C7 — contact construction -/

/-- C7, counterexample: `Record.__init__` does not require a non-empty name;
constructing a record from the empty string succeeds and yields an ordinary
empty record instead of failing. -/
theorem c7_counterexample :
    record_new "" = { name := "", phones := [], birthday := none } := rfl

/-- C7, amended: contact construction performs no validation of the name at
all (the empty string is accepted like any other), and every newly constructed
contact starts with an empty phone sequence and no birthday. -/
theorem c7_record_new (name : String) :
    (record_new name).name = name ∧ (record_new name).phones = [] ∧
      (record_new name).birthday = none :=
  ⟨rfl, rfl, rfl⟩

/-! ### C8 — idempotent add-or-get -/

/-- Inserting a fresh record under an absent name appends it, and the name
then looks up exactly that record. -/
theorem find_record_add_new (book : Book) (name : String)
    (h : find_record book name = none) :
    add_record book (record_new name) = book ++ [record_new name] ∧
      find_record (book ++ [record_new name]) name = some (record_new name) := by
  unfold find_record at h
  have hall := List.find?_eq_none.mp h
  constructor
  · have hany : book.any (fun x => x.name == (record_new name).name) = false := by
      rw [List.any_eq_false]
      intro x hx
      simpa [record_new] using hall x hx
    unfold add_record
    rw [hany]
    simp
  · unfold find_record
    rw [List.find?_append, h, Option.none_or]
    rw [List.find?_cons_of_pos]
    simp [record_new]

/-- C8: `add_or_get` is idempotent — a second call with the same name returns
the book unchanged together with the very record the first call stored, and a
call on a name that is already present returns the stored record untouched
(phones and birthday included). -/
theorem c8_add_or_get_idempotent :
    (∀ (book : Book) (name : String),
      add_or_get (add_or_get book name).1 name = add_or_get book name) ∧
    (∀ (book : Book) (name : String) (r : Record),
      find_record book name = some r → add_or_get book name = (book, r)) := by
  have hfound : ∀ (book : Book) (name : String) (r : Record),
      find_record book name = some r → add_or_get book name = (book, r) := by
    intro book name r h
    unfold add_or_get
    rw [h]
  refine ⟨?_, hfound⟩
  intro book name
  cases h : find_record book name with
  | some r =>
    rw [hfound book name r h]
    exact hfound book name r h
  | none =>
    obtain ⟨happ, hfind⟩ := find_record_add_new book name h
    unfold add_or_get
    rw [h, happ, hfind]

/-- Witness for `c8_add_or_get_idempotent`: the empty book, and a book where
`Ann` already owns a phone that the repeated call must not reset. -/
theorem c8_add_or_get_idempotent_witness :
    add_or_get (add_or_get [] "Ann").1 "Ann" = add_or_get [] "Ann" ∧
      add_or_get [⟨"Ann", ["1234567890"], none⟩] "Ann" =
        ([⟨"Ann", ["1234567890"], none⟩], ⟨"Ann", ["1234567890"], none⟩) :=
  ⟨c8_add_or_get_idempotent.1 [] "Ann",
   c8_add_or_get_idempotent.2 [⟨"Ann", ["1234567890"], none⟩] "Ann"
     ⟨"Ann", ["1234567890"], none⟩ (by decide)⟩

/-! ### C10 — add-contact inserts before validating the phone -/

/-- C10: calling `add_contact` with an absent name and an invalid non-empty
phone raises the invalid-format error, yet the returned book already contains
the freshly inserted record — with that name and an empty phone list — because
`Record(name)` is stored before `add_phone` validates. -/
theorem c10_add_contact_not_atomic (book : Book) (name phone : String)
    (h : find_record book name = none) (hne : phone ≠ "")
    (hbad : ¬(phone.length = 10 ∧ phone.data.all Char.isDigit)) :
    add_contact book name phone =
      (book ++ [record_new name], .error .invalidFormat) ∧
    find_record (add_contact book name phone).1 name =
      some { name := name, phones := [], birthday := none } := by
  obtain ⟨happ, hfind⟩ := find_record_add_new book name h
  have hc : (!py_isdigit phone || phone.length != 10) = true := by
    by_contra hne'
    exact hbad (by simpa using (phone_check_false_iff phone).mp (by simpa using hne'))
  have hmain : add_contact book name phone =
      (book ++ [record_new name], .error .invalidFormat) := by
    unfold add_contact
    rw [h, happ]
    simp [hc, hne]
  refine ⟨hmain, ?_⟩
  rw [hmain]
  exact hfind

/-- Witness for `c10_add_contact_not_atomic`: adding `Zed` with the malformed
phone `12ab` to the empty book. -/
theorem c10_add_contact_not_atomic_witness :
    add_contact [] "Zed" "12ab" =
      ([record_new "Zed"], .error .invalidFormat) ∧
    find_record (add_contact [] "Zed" "12ab").1 "Zed" =
      some { name := "Zed", phones := [], birthday := none } :=
  c10_add_contact_not_atomic [] "Zed" "12ab" rfl (by decide) (by decide)

/-! ### C5 — leap-day birthdays raise on a non-leap year -/

/-- If any record of the processed list raises, the whole loop raises. -/
theorem find_upcoming_error_of_mem (days : Nat) (today : Date)
    {rs : List Record} {r : Record} (hr : r ∈ rs)
    (hp : process_record days today r = none) :
    find_upcoming_birthdays days today rs = none := by
  induction rs with
  | nil => cases hr
  | cons a l ih =>
    cases hr with
    | head => simp [find_upcoming_birthdays, hp]
    | tail _ hr' =>
      unfold find_upcoming_birthdays
      cases hproc : process_record days today a with
      | none => rfl
      | some o =>
        cases o with
        | none => exact ih hr'
        | some p => rw [ih hr']; rfl

/-- C5: a stored 29-February birthday makes the window query raise whenever
`today`'s year is not a leap year — `replace(year=today.year)` fails to
construct the occurrence, and the query neither clamps to 28 February nor
skips the contact. -/
theorem c5_leap_day_raises (book : Book) (days : Nat) (today : Date)
    (r : Record) (b : Date) (hr : r ∈ book) (hb : r.birthday = some b)
    (hm : b.month = 2) (hd : b.day = 29) (hy : isLeapYear today.year = false) :
    get_upcoming_birthdays book days today = none := by
  have hp : process_record days today r = none := by
    have : next_occurrence today b = none := by
      unfold next_occurrence
      rw [hm, hd]
      have h28 : daysInMonth today.year 2 = 28 := by
        unfold daysInMonth
        rw [if_pos rfl, if_neg (by simp [hy])]
      unfold mkValidDate
      rw [if_neg]
      rintro ⟨-, -, -, -, -, hle⟩
      rw [h28] at hle
      omega
    simp [process_record, hb, this]
  have hmem : r ∈ prepare_users book :=
    List.mem_filter.mpr ⟨hr, by simp [hb]⟩
  exact find_upcoming_error_of_mem days today hmem hp

/-- Witness for `c5_leap_day_raises`: `Leo` born 29.02.2000, queried on
01.01.2025 (2025 is not a leap year). -/
theorem c5_leap_day_raises_witness :
    get_upcoming_birthdays [⟨"Leo", [], some ⟨2000, 2, 29⟩⟩] 7 ⟨2025, 1, 1⟩ =
      none :=
  c5_leap_day_raises [⟨"Leo", [], some ⟨2000, 2, 29⟩⟩] 7 ⟨2025, 1, 1⟩
    ⟨"Leo", [], some ⟨2000, 2, 29⟩⟩ ⟨2000, 2, 29⟩ (by decide) rfl rfl rfl
    (by decide)

/-! ### C6 — edit-phone semantics -/

/-- The scan raises "not found" when no entry equals the old number. -/
theorem edit_phone_list_not_found (ps : List String) (o n : String)
    (h : o ∉ ps) : edit_phone_list ps o n = .error .notFound := by
  induction ps with
  | nil => rfl
  | cons p ps ih =>
    unfold edit_phone_list
    rw [if_neg (by simp at h; exact fun hpo => h.1 hpo.symm)]
    rw [ih (by simp at h; exact h.2)]
    rfl

/-- The scan replaces the first matching entry in place when the new number
is a valid phone. -/
theorem edit_phone_list_replace (l1 l2 : List String) (o n : String)
    (h1 : o ∉ l1) (hlen : n.length = 10) (hdig : n.data.all Char.isDigit) :
    edit_phone_list (l1 ++ o :: l2) o n = .ok (l1 ++ n :: l2) := by
  have hc : (!py_isdigit n || n.length != 10) = false :=
    (phone_check_false_iff n).mpr ⟨hlen, hdig⟩
  induction l1 with
  | nil =>
    simp only [List.nil_append, edit_phone_list]
    simp [hc]
  | cons a l1 ih =>
    simp only [List.cons_append, edit_phone_list, List.append_eq]
    rw [if_neg (by simp at h1; exact fun hao => h1.1 hao.symm)]
    rw [ih (by simp at h1; exact h1.2)]
    rfl

/-- The scan raises the invalid-format error when the old number is found
but the new one is not a valid phone. -/
theorem edit_phone_list_invalid (l1 l2 : List String) (o n : String)
    (h1 : o ∉ l1) (hbad : ¬(n.length = 10 ∧ n.data.all Char.isDigit)) :
    edit_phone_list (l1 ++ o :: l2) o n = .error .invalidFormat := by
  have hc : (!py_isdigit n || n.length != 10) = true := by
    by_contra hne
    exact hbad (by simpa using (phone_check_false_iff n).mp (by simpa using hne))
  induction l1 with
  | nil =>
    simp only [List.nil_append, edit_phone_list]
    simp [hc]
  | cons a l1 ih =>
    simp only [List.cons_append, edit_phone_list, List.append_eq]
    rw [if_neg (by simp at h1; exact fun hao => h1.1 hao.symm)]
    rw [ih (by simp at h1; exact h1.2)]
    rfl

/-- C6: `edit_phone` replaces the value of the first entry equal to the old
number in place, preserving its position and every other entry; with no
matching entry it fails with the not-found error, and with a matching entry
but an invalid new number it fails with the invalid-format error — in both
failure cases producing no updated record, so the phone list is untouched. -/
theorem c6_edit_phone :
    (∀ (r : Record) (o n : String), o ∉ r.phones →
      edit_phone r o n = .error .notFound) ∧
    (∀ (r : Record) (l1 l2 : List String) (o n : String),
      r.phones = l1 ++ o :: l2 → o ∉ l1 →
      n.length = 10 → n.data.all Char.isDigit →
      edit_phone r o n = .ok { r with phones := l1 ++ n :: l2 }) ∧
    (∀ (r : Record) (l1 l2 : List String) (o n : String),
      r.phones = l1 ++ o :: l2 → o ∉ l1 →
      ¬(n.length = 10 ∧ n.data.all Char.isDigit) →
      edit_phone r o n = .error .invalidFormat) := by
  refine ⟨?_, ?_, ?_⟩
  · intro r o n h
    unfold edit_phone
    rw [edit_phone_list_not_found r.phones o n h]
    rfl
  · intro r l1 l2 o n hsplit h1 hlen hdig
    unfold edit_phone
    rw [hsplit, edit_phone_list_replace l1 l2 o n h1 hlen hdig]
    rfl
  · intro r l1 l2 o n hsplit h1 hbad
    unfold edit_phone
    rw [hsplit, edit_phone_list_invalid l1 l2 o n h1 hbad]
    rfl

/-- Witness for `c6_edit_phone`: a missing old number, a successful in-place
replacement that leaves the neighbouring entries alone, and a found old
number with a malformed replacement. -/
theorem c6_edit_phone_witness :
    edit_phone ⟨"A", ["0000000000"], none⟩ "1111111111" "2222222222" =
      .error .notFound ∧
    edit_phone ⟨"A", ["0000000000", "1111111111", "3333333333"], none⟩
        "1111111111" "2222222222" =
      .ok ⟨"A", ["0000000000", "2222222222", "3333333333"], none⟩ ∧
    edit_phone ⟨"A", ["0000000000"], none⟩ "0000000000" "12ab" =
      .error .invalidFormat :=
  ⟨c6_edit_phone.1 ⟨"A", ["0000000000"], none⟩ "1111111111" "2222222222"
     (by decide),
   c6_edit_phone.2.1 ⟨"A", ["0000000000", "1111111111", "3333333333"], none⟩
     ["0000000000"] ["3333333333"] "1111111111" "2222222222"
     rfl (by decide) (by decide) (by decide),
   c6_edit_phone.2.2 ⟨"A", ["0000000000"], none⟩ [] [] "0000000000" "12ab"
     rfl (by decide) (by decide)⟩

/-! ### C2 — weekend rollover -/

/-- The weekday index is always below 7. -/
theorem weekday_lt_7 (d : Date) : weekday d < 7 :=
  Nat.mod_lt _ (by norm_num)

/-- `find_next_weekday` moves a Saturday two days ahead to Monday. -/
theorem find_next_weekday_sat (d : Date) (h : weekday d = 5) :
    find_next_weekday d 0 = addDays d 2 := by
  unfold find_next_weekday
  rw [h]
  norm_num
  rfl

/-- `find_next_weekday` moves a Sunday one day ahead to Monday. -/
theorem find_next_weekday_sun (d : Date) (h : weekday d = 6) :
    find_next_weekday d 0 = addDays d 1 := by
  unfold find_next_weekday
  rw [h]
  norm_num

/-- C2: a record whose next occurrence lands inside the window is emitted
with the occurrence moved 2 days ahead when it is a Saturday, 1 day ahead
when it is a Sunday (the following Monday in both cases, never a zero-day
shift), and unchanged Monday through Friday; in particular `Bob`
(birthday 15.06.2024, a Saturday) queried on Monday 10.06.2024 with a 7-day
window is congratulated on 17.06.2024. -/
theorem c2_weekend_rollover :
    (∀ (days : Nat) (today : Date) (r : Record) (b d : Date),
      r.birthday = some b →
      next_occurrence today b = some d →
      0 ≤ (toOrdinal d : Int) - (toOrdinal today : Int) →
      (toOrdinal d : Int) - (toOrdinal today : Int) ≤ (days : Int) →
      process_record days today r =
        some (some (r.name, String.mk (formatDMY
          (if weekday d = 5 then addDays d 2
           else if weekday d = 6 then addDays d 1
           else d))))) ∧
    get_upcoming_birthdays bobBook 7 ⟨2024, 6, 10⟩ =
      some [("Bob", "17.06.2024")] := by
  constructor
  · intro days today r b d hb hocc h0 h1
    have hroll : (if 5 ≤ weekday d then find_next_weekday d 0 else d) =
        (if weekday d = 5 then addDays d 2
         else if weekday d = 6 then addDays d 1
         else d) := by
      rcases Nat.lt_or_ge (weekday d) 5 with hlt | hge
      · rw [if_neg (by omega), if_neg (by omega), if_neg (by omega)]
      · have h7 := weekday_lt_7 d
        interval_cases h : weekday d
        · rw [if_pos (by omega), if_pos rfl]
          exact find_next_weekday_sat d h
        · rw [if_pos (by omega), if_neg (by omega), if_pos rfl]
          exact find_next_weekday_sun d h
    simp only [process_record, hb, hocc]
    rw [if_pos ⟨h0, h1⟩, hroll]
  · decide

/-- Witness for the general part of `c2_weekend_rollover`: `Bob`'s record on
10.06.2024, whose occurrence 15.06.2024 is a Saturday. -/
theorem c2_weekend_rollover_witness :
    process_record 7 ⟨2024, 6, 10⟩ bobRecord =
      some (some (bobRecord.name, String.mk (formatDMY
        (if weekday ⟨2024, 6, 15⟩ = 5 then addDays ⟨2024, 6, 15⟩ 2
         else if weekday ⟨2024, 6, 15⟩ = 6 then addDays ⟨2024, 6, 15⟩ 1
         else ⟨2024, 6, 15⟩)))) :=
  c2_weekend_rollover.1 7 ⟨2024, 6, 10⟩ bobRecord ⟨2024, 6, 15⟩ ⟨2024, 6, 15⟩
    rfl (by decide) (by decide) (by decide)

/-! ### C3 — window inclusion -/

/-- Characterization of the loop body once the occurrence is known. -/
theorem process_record_eq (days : Nat) (today : Date) (r : Record)
    (b d : Date) (hb : r.birthday = some b)
    (hocc : next_occurrence today b = some d) :
    process_record days today r =
      some (if 0 ≤ (toOrdinal d : Int) - (toOrdinal today : Int) ∧
              (toOrdinal d : Int) - (toOrdinal today : Int) ≤ (days : Int) then
              some (r.name, String.mk (formatDMY
                (if 5 ≤ weekday d then find_next_weekday d 0 else d)))
            else none) := by
  simp only [process_record, hb, hocc]
  by_cases hcond : 0 ≤ (toOrdinal d : Int) - (toOrdinal today : Int) ∧
      (toOrdinal d : Int) - (toOrdinal today : Int) ≤ (days : Int)
  · rw [if_pos hcond, if_pos hcond]
  · rw [if_neg hcond, if_neg hcond]

/-- Every pair the loop emits carries the emitting record's name. -/
theorem process_record_name (days : Nat) (today : Date) (r : Record)
    (p : String × String) (h : process_record days today r = some (some p)) :
    p.1 = r.name := by
  cases hb : r.birthday with
  | none => simp [process_record, hb] at h
  | some b =>
    cases hocc : next_occurrence today b with
    | none => simp [process_record, hb, hocc] at h
    | some d =>
      rw [process_record_eq days today r b d hb hocc] at h
      by_cases hcond : 0 ≤ (toOrdinal d : Int) - (toOrdinal today : Int) ∧
          (toOrdinal d : Int) - (toOrdinal today : Int) ≤ (days : Int)
      · rw [if_pos hcond] at h
        simp only [Option.some.injEq] at h
        rw [← h]
      · rw [if_neg hcond] at h
        simp at h

/-- A pair belongs to the loop's output exactly when some processed record
emitted it. -/
theorem mem_find_upcoming (days : Nat) (today : Date) (n s : String) :
    ∀ (rs : List Record) (l : List (String × String)),
      find_upcoming_birthdays days today rs = some l →
      ((n, s) ∈ l ↔
        ∃ r ∈ rs, process_record days today r = some (some (n, s))) := by
  intro rs
  induction rs with
  | nil =>
    intro l h
    simp only [find_upcoming_birthdays, Option.some.injEq] at h
    simp [← h]
  | cons a rs ih =>
    intro l h
    unfold find_upcoming_birthdays at h
    cases hp : process_record days today a with
    | none => rw [hp] at h; cases h
    | some o =>
      rw [hp] at h
      cases o with
      | none =>
        rw [ih l h]
        constructor
        · rintro ⟨r, hr, hpr⟩
          exact ⟨r, List.mem_cons_of_mem a hr, hpr⟩
        · rintro ⟨r, hr, hpr⟩
          cases hr with
          | head => rw [hp] at hpr; cases hpr
          | tail _ hr' => exact ⟨r, hr', hpr⟩
      | some p =>
        cases hl' : find_upcoming_birthdays days today rs with
        | none => rw [hl'] at h; cases h
        | some l' =>
          rw [hl'] at h
          simp only [Option.map_some', Option.some.injEq] at h
          subst h
          rw [List.mem_cons]
          constructor
          · rintro (hps | hmem)
            · exact ⟨a, List.mem_cons_self a rs, by rw [hp, ← hps]⟩
            · obtain ⟨r, hr, hpr⟩ := (ih l' hl').mp hmem
              exact ⟨r, List.mem_cons_of_mem a hr, hpr⟩
          · rintro ⟨r, hr, hpr⟩
            cases hr with
            | head =>
              rw [hp] at hpr
              simp only [Option.some.injEq] at hpr
              exact Or.inl hpr.symm
            | tail _ hr' =>
              exact Or.inr ((ih l' hl').mpr ⟨r, hr', hpr⟩)

/-- C3: a contact with a birthday set appears in the query's output exactly
when its next occurrence — this year's occurrence, advanced to next year
precisely when strictly before `today` — lies between 0 and `days` days
ahead, both ends inclusive; in particular `Cleo` (born 02.01.1990) queried on
30.12.2024 gets occurrence 02.01.2025 and is included in the 7-day window,
being 3 days ahead. -/
theorem c3_window_inclusion :
    (∀ (book : Book) (days : Nat) (today : Date) (r : Record) (b d : Date)
        (l : List (String × String)),
      (book.map Record.name).Nodup →
      r ∈ book → r.birthday = some b →
      next_occurrence today b = some d →
      get_upcoming_birthdays book days today = some l →
      ((∃ s, (r.name, s) ∈ l) ↔
        (0 ≤ (toOrdinal d : Int) - (toOrdinal today : Int) ∧
         (toOrdinal d : Int) - (toOrdinal today : Int) ≤ (days : Int)))) ∧
    (next_occurrence ⟨2024, 12, 30⟩ ⟨1990, 1, 2⟩ = some ⟨2025, 1, 2⟩ ∧
     (toOrdinal (⟨2025, 1, 2⟩ : Date) : Int) -
        (toOrdinal (⟨2024, 12, 30⟩ : Date) : Int) = 3 ∧
     get_upcoming_birthdays cleoBook 7 ⟨2024, 12, 30⟩ =
       some [("Cleo", "02.01.2025")]) := by
  constructor
  · intro book days today r b d l hnodup hr hb hocc hq
    unfold get_upcoming_birthdays at hq
    have hmem_pu : r ∈ prepare_users book :=
      List.mem_filter_of_mem hr (by simp [hb])
    constructor
    · rintro ⟨s, hs⟩
      obtain ⟨r', hr', hpr'⟩ :=
        (mem_find_upcoming days today r.name s (prepare_users book) l hq).mp hs
      have hname : r'.name = r.name :=
        (process_record_name days today r' (r.name, s) hpr').symm ▸ rfl
      have : r' = r :=
        List.inj_on_of_nodup_map hnodup (List.mem_of_mem_filter hr') hr hname
      subst this
      rw [process_record_eq days today r' b d hb hocc] at hpr'
      by_cases hcond : 0 ≤ (toOrdinal d : Int) - (toOrdinal today : Int) ∧
          (toOrdinal d : Int) - (toOrdinal today : Int) ≤ (days : Int)
      · exact hcond
      · rw [if_neg hcond] at hpr'
        cases hpr'
    · intro hcond
      refine ⟨String.mk (formatDMY
        (if 5 ≤ weekday d then find_next_weekday d 0 else d)), ?_⟩
      apply (mem_find_upcoming days today r.name _ (prepare_users book) l hq).mpr
      refine ⟨r, hmem_pu, ?_⟩
      rw [process_record_eq days today r b d hb hocc, if_pos hcond]
  · exact ⟨by decide, by decide, by decide⟩

/-- Witness for `c3_window_inclusion` at the year-wrap fixture. -/
theorem c3_window_inclusion_witness :
    (∃ s, ("Cleo", s) ∈ [("Cleo", "02.01.2025")]) ↔
      (0 ≤ (toOrdinal (⟨2025, 1, 2⟩ : Date) : Int) -
            (toOrdinal (⟨2024, 12, 30⟩ : Date) : Int) ∧
       (toOrdinal (⟨2025, 1, 2⟩ : Date) : Int) -
            (toOrdinal (⟨2024, 12, 30⟩ : Date) : Int) ≤ (7 : Int)) :=
  c3_window_inclusion.1 cleoBook 7 ⟨2024, 12, 30⟩ cleoRecord ⟨1990, 1, 2⟩
    ⟨2025, 1, 2⟩ [("Cleo", "02.01.2025")] (by decide) (by decide) rfl
    (by decide) (by decide)

/-! ### C9 — birthday parse/format round-trip -/

/-- Digit characters have code points between 48 and 57. -/
theorem isDigit_bounds (c : Char) (h : c.isDigit = true) :
    48 ≤ c.toNat ∧ c.toNat ≤ 57 := by
  simp [Char.isDigit] at h
  obtain ⟨h1, h2⟩ := h
  exact ⟨UInt32.le_toNat_of_le (by norm_num [UInt32.size]) h1,
    UInt32.toNat_le_of_le (by norm_num [UInt32.size]) h2⟩

/-- Digit characters are not the separator dot. -/
theorem isDigit_ne_dot (c : Char) (h : c.isDigit = true) : ¬(c = '.') := by
  intro he
  rw [he] at h
  exact absurd h (by decide)

/-- `split_dot` cuts a canonical date string into its three fields. -/
theorem split_dot_canonical (d1 d2 m1 m2 y1 y2 y3 y4 : Char)
    (hd1 : d1.isDigit = true) (hd2 : d2.isDigit = true)
    (hm1 : m1.isDigit = true) (hm2 : m2.isDigit = true)
    (hy1 : y1.isDigit = true) (hy2 : y2.isDigit = true)
    (hy3 : y3.isDigit = true) (hy4 : y4.isDigit = true) :
    split_dot [d1, d2, '.', m1, m2, '.', y1, y2, y3, y4] =
      [[d1, d2], [m1, m2], [y1, y2, y3, y4]] := by
  simp [split_dot, isDigit_ne_dot _ hd1, isDigit_ne_dot _ hd2,
    isDigit_ne_dot _ hm1, isDigit_ne_dot _ hm2, isDigit_ne_dot _ hy1,
    isDigit_ne_dot _ hy2, isDigit_ne_dot _ hy3, isDigit_ne_dot _ hy4]

/-- Value of a two-digit field. -/
theorem digitsVal_two (a b : Char) :
    digitsVal [a, b] = 10 * (a.toNat - 48) + (b.toNat - 48) := by
  simp [digitsVal]

/-- Value of a four-digit field. -/
theorem digitsVal_four (a b c d : Char) :
    digitsVal [a, b, c, d] =
      1000 * (a.toNat - 48) + 100 * (b.toNat - 48) + 10 * (c.toNat - 48) +
        (d.toNat - 48) := by
  simp [digitsVal]
  ring

/-- Formatting a digit's value reproduces the digit character. -/
theorem char_ofNat_digit (c : Char) (h : c.isDigit = true) :
    Char.ofNat (48 + (c.toNat - 48)) = c := by
  obtain ⟨h1, -⟩ := isDigit_bounds c h
  rw [Nat.add_sub_cancel' h1]
  exact Char.ofNat_toNat c

/-- `pad2` inverts a two-digit field. -/
theorem pad2_digits (a b : Char) (ha : a.isDigit = true)
    (hb : b.isDigit = true) : pad2 (digitsVal [a, b]) = [a, b] := by
  obtain ⟨ha1, ha2⟩ := isDigit_bounds a ha
  obtain ⟨hb1, hb2⟩ := isDigit_bounds b hb
  rw [digitsVal_two]
  unfold pad2
  have e1 : (10 * (a.toNat - 48) + (b.toNat - 48)) / 10 % 10 = a.toNat - 48 := by
    omega
  have e2 : (10 * (a.toNat - 48) + (b.toNat - 48)) % 10 = b.toNat - 48 := by
    omega
  rw [e1, e2, char_ofNat_digit a ha, char_ofNat_digit b hb]

/-- `pad4` inverts a four-digit field. -/
theorem pad4_digits (a b c d : Char) (ha : a.isDigit = true)
    (hb : b.isDigit = true) (hc : c.isDigit = true) (hd : d.isDigit = true) :
    pad4 (digitsVal [a, b, c, d]) = [a, b, c, d] := by
  obtain ⟨ha1, ha2⟩ := isDigit_bounds a ha
  obtain ⟨hb1, hb2⟩ := isDigit_bounds b hb
  obtain ⟨hc1, hc2⟩ := isDigit_bounds c hc
  obtain ⟨hd1, hd2⟩ := isDigit_bounds d hd
  rw [digitsVal_four]
  unfold pad4
  have e1 : (1000 * (a.toNat - 48) + 100 * (b.toNat - 48) + 10 * (c.toNat - 48)
      + (d.toNat - 48)) / 1000 % 10 = a.toNat - 48 := by omega
  have e2 : (1000 * (a.toNat - 48) + 100 * (b.toNat - 48) + 10 * (c.toNat - 48)
      + (d.toNat - 48)) / 100 % 10 = b.toNat - 48 := by omega
  have e3 : (1000 * (a.toNat - 48) + 100 * (b.toNat - 48) + 10 * (c.toNat - 48)
      + (d.toNat - 48)) / 10 % 10 = c.toNat - 48 := by omega
  have e4 : (1000 * (a.toNat - 48) + 100 * (b.toNat - 48) + 10 * (c.toNat - 48)
      + (d.toNat - 48)) % 10 = d.toNat - 48 := by omega
  rw [e1, e2, e3, e4, char_ofNat_digit a ha, char_ofNat_digit b hb,
    char_ofNat_digit c hc, char_ofNat_digit d hd]

/-- A successful `datetime.date` construction stores its arguments. -/
theorem mkValidDate_eq_some {y m d : Nat} {dt : Date}
    (h : mkValidDate y m d = some dt) : dt = ⟨y, m, d⟩ := by
  unfold mkValidDate at h
  split at h
  · exact (Option.some.injEq _ _ ▸ h).symm
  · cases h

/-- C9: for every string in strict zero-padded `DD.MM.YYYY` form denoting a
real calendar date, `Birthday` construction succeeds, and formatting the
stored date with `%d.%m.%Y` reproduces the original string. -/
theorem c9_birthday_roundtrip (s : List Char)
    (h : is_canonical_date_string s = true) :
    ∃ d : Date, birthday_new s = some d ∧ formatDMY d = s := by
  rcases s with - | ⟨d1, s⟩
  · exact absurd h (by simp [is_canonical_date_string])
  rcases s with - | ⟨d2, s⟩
  · exact absurd h (by simp [is_canonical_date_string])
  rcases s with - | ⟨c1, s⟩
  · exact absurd h (by simp [is_canonical_date_string])
  rcases s with - | ⟨m1, s⟩
  · exact absurd h (by simp [is_canonical_date_string])
  rcases s with - | ⟨m2, s⟩
  · exact absurd h (by simp [is_canonical_date_string])
  rcases s with - | ⟨c2, s⟩
  · exact absurd h (by simp [is_canonical_date_string])
  rcases s with - | ⟨y1, s⟩
  · exact absurd h (by simp [is_canonical_date_string])
  rcases s with - | ⟨y2, s⟩
  · exact absurd h (by simp [is_canonical_date_string])
  rcases s with - | ⟨y3, s⟩
  · exact absurd h (by simp [is_canonical_date_string])
  rcases s with - | ⟨y4, s⟩
  · exact absurd h (by simp [is_canonical_date_string])
  rcases s with - | ⟨z, s⟩
  rotate_left
  · exact absurd h (by simp [is_canonical_date_string])
  simp only [is_canonical_date_string, Bool.and_eq_true, beq_iff_eq] at h
  obtain ⟨⟨⟨⟨⟨⟨⟨⟨⟨⟨hc1, hc2⟩, hd1⟩, hd2⟩, hm1⟩, hm2⟩, hy1⟩, hy2⟩, hy3⟩, hy4⟩,
    hvalid⟩ := h
  subst hc1
  subst hc2
  have hsplit := split_dot_canonical d1 d2 m1 m2 y1 y2 y3 y4 hd1 hd2 hm1 hm2
    hy1 hy2 hy3 hy4
  have hparse : birthday_new [d1, d2, '.', m1, m2, '.', y1, y2, y3, y4] =
      mkValidDate (digitsVal [y1, y2, y3, y4]) (digitsVal [m1, m2])
        (digitsVal [d1, d2]) := by
    simp only [birthday_new, strptime_dmY, hsplit]
    rw [if_pos ⟨by simp, by simp, by simp [hd1, hd2], by simp, by simp,
      by simp [hm1, hm2], by simp, by simp [hy1, hy2, hy3, hy4]⟩]
  obtain ⟨dt, hdt⟩ := Option.isSome_iff_exists.mp hvalid
  have hdteq := mkValidDate_eq_some hdt
  refine ⟨dt, ?_, ?_⟩
  · rw [hparse, hdt]
  · rw [hdteq]
    simp only [formatDMY]
    rw [pad2_digits d1 d2 hd1 hd2, pad2_digits m1 m2 hm1 hm2,
      pad4_digits y1 y2 y3 y4 hy1 hy2 hy3 hy4]
    rfl

/-- Witness for `c9_birthday_roundtrip` at the canonical string
`15.06.2024`. -/
theorem c9_birthday_roundtrip_witness :
    is_canonical_date_string
        ['1', '5', '.', '0', '6', '.', '2', '0', '2', '4'] = true ∧
      ∃ d : Date,
        birthday_new ['1', '5', '.', '0', '6', '.', '2', '0', '2', '4'] =
            some d ∧
          formatDMY d = ['1', '5', '.', '0', '6', '.', '2', '0', '2', '4'] :=
  ⟨by decide, c9_birthday_roundtrip
    ['1', '5', '.', '0', '6', '.', '2', '0', '2', '4'] (by decide)⟩

end Bot
